import Mathlib

/-!
Shallow embedding of the `construct` terminal view-router library
(`src/lib.rs`).

The library is a façade over the `console` crate's `Term`: the router
`Construct` holds a terminal handle and an optional logo, and `Construct::view`
clears the previous output, optionally writes the logo line, writes the view's
title and then delegates to the view's content renderer.

We model the terminal as explicit state: the visible screen (a list of
completed lines plus the pending, unterminated line the cursor sits on), a
trace of the terminal operations performed so far, and an optional failure
budget — `none` means the output target never fails, `some k` means the next
`k` operations succeed and every operation after that fails with a write
error. Fallible operations return `Except WriteError Unit` paired with the
terminal state after the call (a failed operation leaves the terminal
untouched).
-/

/-- The primitive operations the library invokes on the `console::Term`
collaborator: `clear_last_lines(n)`, `write_line(s)` and `write_str(s)`. -/
inductive TermOp where
  | clearLastLines : Nat → TermOp
  | writeLine : String → TermOp
  | writeStr : String → TermOp
  deriving Repr, DecidableEq

/-- The single error kind: a failure of the underlying output target. -/
inductive WriteError where
  | writeError
  deriving Repr, DecidableEq

/-- The state of the terminal output target. `lines` are the completed visible
lines, `pending` is the unterminated line the cursor sits on, `trace` records
the operations performed so far, and `budget` is the failure budget of the
output target (`none`: never fails; `some k`: the next `k` operations succeed,
after which every operation fails). -/
structure TermState where
  lines : List String
  pending : String
  trace : List TermOp
  budget : Option Nat
  deriving Repr, DecidableEq

/-- A fresh terminal: empty screen, no recorded operations, writes never
fail. -/
def TermState.initial : TermState :=
  { lines := [], pending := "", trace := [], budget := none }

/-- Feed raw characters to the screen: a newline completes the pending line,
any other character extends it. -/
def pushChars : List String → String → List Char → List String × String
  | lines, pend, [] => (lines, pend)
  | lines, pend, c :: rest =>
    if c = '\n' then pushChars (lines ++ [pend]) "" rest
    else pushChars lines (pend.push c) rest

/-- Effect of writing a raw string on the screen. -/
def applyWriteStr (lines : List String) (pend : String) (s : String) :
    List String × String :=
  pushChars lines pend s.data

/-- Effect of one terminal operation on the screen (`lines`, `pending`).
`clear_last_lines n` erases the last `n` visible lines (all of them when fewer
than `n` exist) and leaves the cursor on a fresh line; `write_line s` writes
`s` followed by a newline; `write_str s` writes `s` raw. -/
def applyOp (st : List String × String) (op : TermOp) : List String × String :=
  match op with
  | .clearLastLines n => (st.1.take (st.1.length - n), "")
  | .writeLine s => applyWriteStr st.1 st.2 (s ++ "\n")
  | .writeStr s => applyWriteStr st.1 st.2 s

/-- Effect of a sequence of terminal operations on the screen. -/
def applyOps (st : List String × String) (ops : List TermOp) :
    List String × String :=
  ops.foldl applyOp st

/-- Perform one primitive terminal operation: when the failure budget is
exhausted the operation fails and leaves the terminal untouched; otherwise it
updates the screen, records itself in the trace and decrements the budget. -/
def doOp (op : TermOp) (t : TermState) : Except WriteError Unit × TermState :=
  match t.budget with
  | some 0 => (.error .writeError, t)
  | b =>
    let st := applyOp (t.lines, t.pending) op
    (.ok (), { lines := st.1, pending := st.2, trace := t.trace ++ [op],
               budget := b.map fun k => k - 1 })

/-- Sequencing of fallible terminal computations: Rust's `?` operator —
on failure, return the error at once and run nothing further. -/
def tbind {α β : Type} (x : Except WriteError α × TermState)
    (f : α → TermState → Except WriteError β × TermState) :
    Except WriteError β × TermState :=
  match x with
  | (.ok a, t) => f a t
  | (.error e, t) => (.error e, t)

/-- Model of `Term::clear_last_lines(n)` from the `console` crate. -/
def Term.clearLastLines (n : Nat) (t : TermState) :
    Except WriteError Unit × TermState :=
  doOp (.clearLastLines n) t

/-- Model of `Term::write_line(s)` from the `console` crate. -/
def Term.writeLine (s : String) (t : TermState) :
    Except WriteError Unit × TermState :=
  doOp (.writeLine s) t

/-- Model of `Term::write_str(s)` from the `console` crate. -/
def Term.writeStr (s : String) (t : TermState) :
    Except WriteError Unit × TermState :=
  doOp (.writeStr s) t

/-- Translation of `impl Clear for Term` from the source:
`fn clear(&self) { self.clear_last_lines(999)?; Ok(()) }`. -/
def Term.clear (t : TermState) : Except WriteError Unit × TermState :=
  tbind (Term.clearLastLines 999 t) fun _ t => (.ok (), t)

/-- Translation of `impl WriteLineBreak for Term` from the source:
`fn write_line_break(&self) { self.write_str("\n")?; Ok(()) }`. -/
def Term.writeLineBreak (t : TermState) : Except WriteError Unit × TermState :=
  tbind (Term.writeStr "\n" t) fun _ t => (.ok (), t)

/-- The identity of a terminal handle: process standard output
(`Term::stdout()`) or some other explicitly constructed terminal. -/
inductive TermHandle where
  | stdout
  | handle : Nat → TermHandle
  deriving Repr, DecidableEq

/-- Translation of `struct Construct { terminal: Term, logo: Option<String> }`. -/
structure Construct where
  terminal : TermHandle
  logo : Option String
  deriving Repr, DecidableEq

/-- The `View` trait: a title and a content renderer that receives the
terminal and the router (so it may chain to a further `view` call) and may
fail with a write error. -/
structure View where
  title : String
  content : TermState → Construct → Except WriteError Unit × TermState

/-- Translation of `Construct::new()`: default values — standard output, no logo. -/
def Construct.new : Construct :=
  { terminal := .stdout, logo := none }

/-- Translation of `struct ConstructBuilder` with its two optional fields. -/
structure ConstructBuilder where
  terminal : Option TermHandle
  logo : Option String
  deriving Repr, DecidableEq

/-- Translation of `Construct::builder()`. -/
def Construct.builder : ConstructBuilder :=
  { terminal := none, logo := none }

/-- Translation of `ConstructBuilder::with_terminal`. -/
def ConstructBuilder.withTerminal (b : ConstructBuilder) (t : TermHandle) :
    ConstructBuilder :=
  { b with terminal := some t }

/-- Translation of `ConstructBuilder::with_logo`. -/
def ConstructBuilder.withLogo (b : ConstructBuilder) (l : String) :
    ConstructBuilder :=
  { b with logo := some l }

/-- Translation of `ConstructBuilder::build`: default the terminal to `Term::stdout()` when
none was supplied. -/
def ConstructBuilder.build (b : ConstructBuilder) : Construct :=
  let terminal := match b.terminal with
    | some t => t
    | none => .stdout
  { terminal := terminal, logo := b.logo }

/-- Translation of `Construct::view` (the `display` operation) from the source:
```
self.terminal.clear()?;
if let Some(l) = &self.logo {
    self.terminal.write_line(&l)?;
}
self.terminal.write_line(&view.title())?;
view.content(&self.terminal, self)
``` -/
def Construct.view (c : Construct) (v : View) (t : TermState) :
    Except WriteError Unit × TermState :=
  tbind (Term.clear t) fun _ t =>
  tbind (match c.logo with
         | some l => Term.writeLine l t
         | none => (.ok (), t)) fun _ t =>
  tbind (Term.writeLine v.title t) fun _ t =>
  v.content t c

/-- Run a list of terminal operations in order, stopping at the first
failure. Used to model views whose content renderer just performs a sequence
of terminal writes. -/
def runOps : List TermOp → TermState → Except WriteError Unit × TermState
  | [], t => (.ok (), t)
  | op :: rest, t => tbind (doOp op t) fun _ t => runOps rest t

/-- A view whose content renderer performs the given terminal operations. -/
def View.ofOps (title : String) (ops : List TermOp) : View :=
  { title := title, content := fun t _ => runOps ops t }

/-- A view whose content renderer writes the given lines with `write_line`. -/
def View.ofLines (title : String) (ls : List String) : View :=
  View.ofOps title (ls.map .writeLine)

/-- The write operations `Construct::view` performs for the logo:
one `write_line` when a logo is configured, nothing otherwise. -/
def logoOps : Option String → List TermOp
  | some l => [.writeLine l]
  | none => []

/-- The full operation sequence of one `Construct::view` call on a view whose
content performs `ops`: the clear, the optional logo line, the title line,
then the content's operations. -/
def displayOps (logo : Option String) (title : String) (ops : List TermOp) :
    List TermOp :=
  .clearLastLines 999 :: (logoOps logo ++ .writeLine title :: ops)

/-- The logo decoration as screen lines. -/
def logoLines : Option String → List String
  | some l => [l]
  | none => []

/-- The screen content produced by one `Construct::view` call on an empty
screen, for a view that writes the lines `ls`. -/
def screenOut (logo : Option String) (title : String) (ls : List String) :
    List String :=
  logoLines logo ++ title :: ls

/-- A string fit to be a single terminal line: it contains no newline. -/
def noNewline (s : String) : Prop := '\n' ∉ s.data

instance (s : String) : Decidable (noNewline s) := by
  unfold noNewline
  infer_instance

/-! ### Basic lemmas about the sequencing combinator and primitive steps -/

@[simp] lemma tbind_ok {α β : Type} (a : α) (t : TermState)
    (f : α → TermState → Except WriteError β × TermState) :
    tbind (.ok a, t) f = f a t := rfl

@[simp] lemma tbind_error {α β : Type} (e : WriteError) (t : TermState)
    (f : α → TermState → Except WriteError β × TermState) :
    tbind (.error e, t) f = (.error e, t) := rfl

lemma tbind_unit (x : Except WriteError Unit × TermState) :
    tbind x (fun _ t => (.ok (), t)) = x := by
  rcases x with ⟨r, t⟩
  cases r <;> rfl

lemma doOp_budget_none (op : TermOp) (t : TermState) (hb : t.budget = none) :
    doOp op t = (.ok (), { lines := (applyOp (t.lines, t.pending) op).1,
                           pending := (applyOp (t.lines, t.pending) op).2,
                           trace := t.trace ++ [op], budget := none }) := by
  simp [doOp, hb]

lemma doOp_budget_zero (op : TermOp) (t : TermState) (hb : t.budget = some 0) :
    doOp op t = (.error .writeError, t) := by
  simp [doOp, hb]

lemma doOp_budget_succ (op : TermOp) (t : TermState) (k : Nat)
    (hb : t.budget = some (k + 1)) :
    doOp op t = (.ok (), { lines := (applyOp (t.lines, t.pending) op).1,
                           pending := (applyOp (t.lines, t.pending) op).2,
                           trace := t.trace ++ [op], budget := some k }) := by
  simp [doOp, hb]

/-! ### Running operation lists -/

lemma runOps_append (a b : List TermOp) (t : TermState) :
    runOps (a ++ b) t = tbind (runOps a t) fun _ t => runOps b t := by
  induction a generalizing t with
  | nil => rfl
  | cons op rest ih =>
    show tbind (doOp op t) _ = tbind (tbind (doOp op t) _) _
    rcases h : doOp op t with ⟨r, t'⟩
    cases r with
    | ok a => simp [ih]
    | error e => simp

/-- With an unexhausted (infinite) budget, running `ops` succeeds, applies the
operations to the screen and appends them to the trace. -/
lemma runOps_budget_none (ops : List TermOp) (t : TermState)
    (hb : t.budget = none) :
    runOps ops t = (.ok (), { lines := (applyOps (t.lines, t.pending) ops).1,
                              pending := (applyOps (t.lines, t.pending) ops).2,
                              trace := t.trace ++ ops, budget := none }) := by
  induction ops generalizing t with
  | nil =>
    rcases t with ⟨L, p, tr, b⟩
    simp only [TermState.budget] at hb
    subst hb
    simp [runOps, applyOps]
  | cons op rest ih =>
    show tbind (doOp op t) _ = _
    rw [doOp_budget_none op t hb, tbind_ok, ih _ rfl]
    simp [applyOps]

/-- With a budget of `k` remaining operations and more than `k` operations to
run, running `ops` performs exactly the first `k` of them and then fails. -/
lemma runOps_budget_short (ops : List TermOp) (t : TermState) (k : Nat)
    (hb : t.budget = some k) (h : k < ops.length) :
    (runOps ops t).1 = .error .writeError ∧
    (runOps ops t).2.trace = t.trace ++ ops.take k ∧
    (runOps ops t).2.budget = some 0 := by
  induction ops generalizing t k with
  | nil => simp at h
  | cons op rest ih =>
    cases k with
    | zero =>
      have hr : runOps (op :: rest) t = (.error .writeError, t) := by
        show tbind (doOp op t) _ = _
        rw [doOp_budget_zero op t hb]
        rfl
      simp [hr, hb]
    | succ k =>
      have hr : runOps (op :: rest) t =
          runOps rest { lines := (applyOp (t.lines, t.pending) op).1,
                        pending := (applyOp (t.lines, t.pending) op).2,
                        trace := t.trace ++ [op], budget := some k } := by
        show tbind (doOp op t) _ = _
        rw [doOp_budget_succ op t k hb]
        rfl
      have hrec := ih { lines := (applyOp (t.lines, t.pending) op).1,
                        pending := (applyOp (t.lines, t.pending) op).2,
                        trace := t.trace ++ [op], budget := some k } k rfl
        (Nat.lt_of_succ_lt_succ (by simpa using h))
      rw [hr]
      simpa [List.append_assoc] using hrec

/-! ### Screen effect of writing newline-free lines -/

lemma pushChars_append (cs ds : List Char) (L : List String) (p : String) :
    pushChars L p (cs ++ ds) =
      pushChars (pushChars L p cs).1 (pushChars L p cs).2 ds := by
  induction cs generalizing L p with
  | nil => rfl
  | cons c cs ih =>
    by_cases h : c = '\n' <;> simp [pushChars, h, ih]

lemma pushChars_no_nl (cs : List Char) (h : '\n' ∉ cs) (L : List String)
    (p : String) :
    pushChars L p cs = (L, ⟨p.data ++ cs⟩) := by
  induction cs generalizing p with
  | nil => simp [pushChars]
  | cons c cs ih =>
    have hc : ¬ c = '\n' := fun hc => h (hc ▸ List.mem_cons_self c cs)
    have hcs : '\n' ∉ cs := fun hm => h (List.mem_cons_of_mem c hm)
    rw [pushChars]
    simp only [if_neg hc]
    rw [ih hcs]
    show (L, (⟨p.data ++ [c] ++ cs⟩ : String)) = _
    simp

lemma applyWriteStr_line (L : List String) (p s : String) (h : noNewline s) :
    applyWriteStr L p (s ++ "\n") = (L ++ [p ++ s], "") := by
  unfold applyWriteStr
  have hdata : (s ++ "\n").data = s.data ++ ['\n'] := String.data_append s "\n"
  rw [hdata, pushChars_append, pushChars_no_nl s.data h]
  show pushChars (L ++ [(⟨p.data ++ s.data⟩ : String)]) "" [] = _
  rfl

lemma applyOp_writeLine (L : List String) (s : String) (h : noNewline s) :
    applyOp (L, "") (.writeLine s) = (L ++ [s], "") := by
  show applyWriteStr L "" (s ++ "\n") = _
  rw [applyWriteStr_line L "" s h]
  rfl

lemma applyOps_writeLines (ls : List String) (L : List String)
    (h : ∀ s ∈ ls, noNewline s) :
    applyOps (L, "") (ls.map .writeLine) = (L ++ ls, "") := by
  induction ls generalizing L with
  | nil => simp [applyOps]
  | cons s rest ih =>
    have hs : noNewline s := h s (List.mem_cons_self s rest)
    have hrest : ∀ u ∈ rest, noNewline u := fun u hu => h u (List.mem_cons_of_mem s hu)
    show applyOps (applyOp (L, "") (.writeLine s)) (rest.map .writeLine) = _
    rw [applyOp_writeLine L s hs, ih (L ++ [s]) hrest]
    simp

/-! ### `Construct::view` as an operation sequence -/

/-- Evaluation bridge: `Construct::view` on a view whose content runs `ops` is exactly the run of
the clear, the optional logo line, the title line and then `ops`. -/
lemma view_ofOps (c : Construct) (title : String) (ops : List TermOp)
    (t : TermState) :
    Construct.view c (View.ofOps title ops) t =
      runOps (displayOps c.logo title ops) t := by
  unfold Construct.view View.ofOps displayOps Term.clear Term.writeLine
    Term.clearLastLines
  rw [tbind_unit]
  show tbind (doOp (.clearLastLines 999) t) _ =
    tbind (doOp (.clearLastLines 999) t) _
  rcases h1 : doOp (.clearLastLines 999) t with ⟨r1, t1⟩
  cases r1 with
  | error e => simp
  | ok a =>
    rw [tbind_ok, tbind_ok]
    rw [runOps_append]
    cases hl : c.logo with
    | none =>
      simp only [logoOps, hl]
      simp [runOps]
    | some l =>
      simp only [logoOps, hl]
      show tbind (doOp (.writeLine l) t1) _ = tbind (runOps [.writeLine l] t1) _
      rcases h2 : doOp (.writeLine l) t1 with ⟨r2, t2⟩
      cases r2 with
      | error e => simp [runOps, h2]
      | ok a => simp [runOps, h2]

lemma displayOps_writeLines (logo : Option String) (title : String)
    (ls : List String) :
    displayOps logo title (ls.map .writeLine) =
      .clearLastLines 999 :: (screenOut logo title ls).map .writeLine := by
  cases logo <;> simp [displayOps, logoOps, screenOut, logoLines]

lemma screenOut_noNewline (c : Construct) (title : String) (ls : List String)
    (ht : noNewline title) (hls : ∀ s ∈ ls, noNewline s)
    (hlogo : ∀ l, c.logo = some l → noNewline l) :
    ∀ s ∈ screenOut c.logo title ls, noNewline s := by
  intro s hs
  unfold screenOut at hs
  rcases List.mem_append.mp hs with h | h
  · cases hl : c.logo with
    | none => rw [hl] at h; simp [logoLines] at h
    | some l =>
      rw [hl] at h
      simp [logoLines] at h
      exact h ▸ hlogo l hl
  · rcases List.mem_cons.mp h with h | h
    · exact h ▸ ht
    · exact hls s h

lemma applyOps_cons (st : List String × String) (op : TermOp)
    (rest : List TermOp) :
    applyOps st (op :: rest) = applyOps (applyOp st op) rest := rfl

lemma applyOp_clear (L : List String) (p : String) (n : Nat) :
    applyOp (L, p) (.clearLastLines n) = (L.take (L.length - n), "") := rfl

/-- Full evaluation of `Construct::view` on a never-failing terminal, for a
view whose content writes the lines `ls`: the call succeeds, the last 999
previously visible lines are erased, and the logo (when configured), the title
and `ls` are written below whatever visible content survived the clear. -/
lemma view_ofLines_eval (c : Construct) (title : String) (ls : List String)
    (t : TermState) (hb : t.budget = none) (ht : noNewline title)
    (hls : ∀ s ∈ ls, noNewline s)
    (hlogo : ∀ l, c.logo = some l → noNewline l) :
    Construct.view c (View.ofLines title ls) t =
      (.ok (), { lines := t.lines.take (t.lines.length - 999) ++
                            screenOut c.logo title ls,
                 pending := "",
                 trace := t.trace ++ displayOps c.logo title (ls.map .writeLine),
                 budget := none }) := by
  unfold View.ofLines
  rw [view_ofOps, runOps_budget_none _ _ hb]
  have happ : applyOps (t.lines, t.pending)
      (displayOps c.logo title (ls.map .writeLine)) =
      (t.lines.take (t.lines.length - 999) ++ screenOut c.logo title ls, "") := by
    rw [displayOps_writeLines, applyOps_cons, applyOp_clear]
    exact applyOps_writeLines _ _ (screenOut_noNewline c title ls ht hls hlogo)
  rw [happ]

/-! ### Claim theorems -/

/-- C2: for every view whose content renderer always succeeds (modelled by a
content that performs a list of terminal operations on an output target that
never fails), `display(view)` returns success and performs its writes in
exactly this order: the clear of prior output, then the logo line if and only
if a logo is configured (`logoOps`), then the view's title as a line, then
whatever the content renderer writes. -/
theorem display_success_and_write_order (c : Construct) (title : String)
    (ops : List TermOp) (t : TermState) (hb : t.budget = none) :
    (Construct.view c (View.ofOps title ops) t).1 = .ok () ∧
    (Construct.view c (View.ofOps title ops) t).2.trace =
      t.trace ++ (TermOp.clearLastLines 999 ::
        (logoOps c.logo ++ TermOp.writeLine title :: ops)) := by
  rw [view_ofOps, runOps_budget_none _ _ hb]
  exact ⟨rfl, rfl⟩

theorem display_success_and_write_order_witness :
    TermState.initial.budget = none ∧
    ((Construct.view { terminal := .stdout, logo := some "Logo" }
        (View.ofOps "T" [TermOp.writeLine "x"]) TermState.initial).1 = .ok () ∧
     (Construct.view { terminal := .stdout, logo := some "Logo" }
        (View.ofOps "T" [TermOp.writeLine "x"]) TermState.initial).2.trace =
      TermState.initial.trace ++ (TermOp.clearLastLines 999 ::
        (logoOps (some "Logo") ++ TermOp.writeLine "T" ::
          [TermOp.writeLine "x"]))) :=
  ⟨rfl, display_success_and_write_order { terminal := .stdout, logo := some "Logo" }
    "T" [TermOp.writeLine "x"] TermState.initial rfl⟩

/-- C3: if the output target's write (or clear) operation fails at some step
of `display` (modelled by a failure budget of `k` operations, exhausted before
the call's operation sequence is finished), then `display` returns that
failure and performs no operation beyond the first `k`: the trace grows by
exactly the operations that preceded the failure, with no retry. -/
theorem display_failure_propagates_and_stops (c : Construct) (title : String)
    (ops : List TermOp) (t : TermState) (k : Nat) (hb : t.budget = some k)
    (h : k < (displayOps c.logo title ops).length) :
    (Construct.view c (View.ofOps title ops) t).1 = .error .writeError ∧
    (Construct.view c (View.ofOps title ops) t).2.trace =
      t.trace ++ (displayOps c.logo title ops).take k := by
  rw [view_ofOps]
  exact ⟨(runOps_budget_short _ _ _ hb h).1, (runOps_budget_short _ _ _ hb h).2.1⟩

theorem display_failure_propagates_and_stops_witness :
    ({ lines := [], pending := "", trace := [],
       budget := some 1 } : TermState).budget = some 1 ∧
    1 < (displayOps none "T" []).length ∧
    ((Construct.view { terminal := .stdout, logo := none }
        (View.ofOps "T" [])
        { lines := [], pending := "", trace := [], budget := some 1 }).1 =
      .error .writeError ∧
     (Construct.view { terminal := .stdout, logo := none }
        (View.ofOps "T" [])
        { lines := [], pending := "", trace := [], budget := some 1 }).2.trace =
      ({ lines := [], pending := "", trace := [],
         budget := some 1 } : TermState).trace ++
        (displayOps none "T" []).take 1) :=
  ⟨rfl, by decide,
   display_failure_propagates_and_stops { terminal := .stdout, logo := none }
     "T" [] { lines := [], pending := "", trace := [], budget := some 1 } 1 rfl
     (by decide)⟩

/-- C4: the `clear()` helper is exactly one `clear_last_lines(999)` request:
for every terminal state it unconditionally requests erasure of the same fixed
999 previously written lines, independent of how many lines are actually
visible (the requested operation does not depend on `t.lines`), and it never
queries the output target's visible line count (the model has no such
query operation; the screen effect is pure truncation of the last 999
lines). -/
theorem clear_is_fixed_bound_999 (t : TermState) (hb : t.budget = none) :
    Term.clear t = doOp (TermOp.clearLastLines 999) t ∧
    Term.clear t =
      (.ok (), { lines := t.lines.take (t.lines.length - 999), pending := "",
                 trace := t.trace ++ [TermOp.clearLastLines 999],
                 budget := none }) := by
  constructor
  · unfold Term.clear Term.clearLastLines
    exact tbind_unit _
  · unfold Term.clear Term.clearLastLines
    rw [doOp_budget_none _ _ hb, tbind_ok, applyOp_clear]

theorem clear_is_fixed_bound_999_witness :
    TermState.initial.budget = none ∧
    (Term.clear TermState.initial =
      doOp (TermOp.clearLastLines 999) TermState.initial ∧
     Term.clear TermState.initial =
      (.ok (), { lines := TermState.initial.lines.take
                   (TermState.initial.lines.length - 999),
                 pending := "",
                 trace := TermState.initial.trace ++
                   [TermOp.clearLastLines 999],
                 budget := none })) :=
  ⟨rfl, clear_is_fixed_bound_999 TermState.initial rfl⟩

/-- C7: `Construct::new` binds the router to process standard output with no
logo; the builder accepts an explicit output target and/or a logo string, and
`build()` without an explicit terminal also defaults to process standard
output. -/
theorem construction_defaults_and_builder :
    Construct.new = { terminal := TermHandle.stdout, logo := none } ∧
    (∀ (b : ConstructBuilder) (ht : TermHandle),
      (b.withTerminal ht).terminal = some ht ∧ (b.withTerminal ht).logo = b.logo) ∧
    (∀ (b : ConstructBuilder) (l : String),
      (b.withLogo l).logo = some l ∧ (b.withLogo l).terminal = b.terminal) ∧
    (∀ lg : Option String,
      ConstructBuilder.build { terminal := none, logo := lg } =
        { terminal := TermHandle.stdout, logo := lg }) ∧
    (∀ (ht : TermHandle) (lg : Option String),
      ConstructBuilder.build { terminal := some ht, logo := lg } =
        { terminal := ht, logo := lg }) :=
  ⟨rfl, fun _ _ => ⟨rfl, rfl⟩, fun _ _ => ⟨rfl, rfl⟩, fun _ => rfl,
   fun _ _ => rfl⟩

/-- C8: `write_line_break()` is exactly one `write_str("\n")` call — it writes
a single empty line to the output target (when the cursor is at the start of a
line) and carries no other logic; it returns success exactly when the
underlying write succeeds, and fails leaving the terminal untouched when the
underlying write fails. -/
theorem write_line_break_single_empty_line (t : TermState)
    (hp : t.pending = "") :
    Term.writeLineBreak t = Term.writeStr "\n" t ∧
    (t.budget = none →
      Term.writeLineBreak t =
        (.ok (), { lines := t.lines ++ [""], pending := "",
                   trace := t.trace ++ [TermOp.writeStr "\n"],
                   budget := none })) ∧
    (t.budget = some 0 →
      Term.writeLineBreak t = (.error .writeError, t)) := by
  refine ⟨?_, ?_, ?_⟩
  · unfold Term.writeLineBreak
    exact tbind_unit _
  · intro hb
    unfold Term.writeLineBreak Term.writeStr
    rw [doOp_budget_none _ _ hb, tbind_ok, hp]
    rfl
  · intro hb
    unfold Term.writeLineBreak Term.writeStr
    rw [doOp_budget_zero _ _ hb]
    rfl

theorem write_line_break_single_empty_line_witness :
    TermState.initial.pending = "" ∧
    (Term.writeLineBreak TermState.initial =
       Term.writeStr "\n" TermState.initial ∧
     (TermState.initial.budget = none →
       Term.writeLineBreak TermState.initial =
         (.ok (), { lines := TermState.initial.lines ++ [""], pending := "",
                    trace := TermState.initial.trace ++
                      [TermOp.writeStr "\n"],
                    budget := none })) ∧
     (TermState.initial.budget = some 0 →
       Term.writeLineBreak TermState.initial =
         (.error .writeError, TermState.initial))) :=
  ⟨rfl, write_line_break_single_empty_line TermState.initial rfl⟩

/-- C9: `Construct::new()` and `Construct::builder().build()` (with no
configuration calls) produce identical routers — same default terminal
(standard output), no logo — so `view` behaves identically on both. -/
theorem new_equals_unconfigured_builder_build :
    Construct.new = Construct.builder.build ∧
    ∀ (v : View) (t : TermState),
      Construct.new.view v t = Construct.builder.build.view v t :=
  ⟨rfl, fun _ _ => rfl⟩

/-- C5: concrete scenarios. With no logo and a view titled "Title" whose
content writes "hello world", `display` succeeds and leaves line 1 = "Title",
line 2 = "hello world"; with logo "Logo" and the same view, it leaves
line 1 = "Logo", line 2 = "Title", line 3 = "hello world". -/
theorem display_concrete_scenarios :
    ((Construct.view { terminal := .stdout, logo := none }
        (View.ofLines "Title" ["hello world"]) TermState.initial).1 =
      .ok () ∧
     (Construct.view { terminal := .stdout, logo := none }
        (View.ofLines "Title" ["hello world"]) TermState.initial).2.lines =
      ["Title", "hello world"]) ∧
    ((Construct.view { terminal := .stdout, logo := some "Logo" }
        (View.ofLines "Title" ["hello world"]) TermState.initial).1 =
      .ok () ∧
     (Construct.view { terminal := .stdout, logo := some "Logo" }
        (View.ofLines "Title" ["hello world"]) TermState.initial).2.lines =
      ["Logo", "Title", "hello world"]) := by
  exact ⟨⟨rfl, by decide⟩, ⟨rfl, by decide⟩⟩

/-- C6: in every `display` call on a router — including repeated calls on the
same router — the operations of each call are the clear, then `logoOps` of the
configured logo, then the title line, then the content's writes; since
`logoOps (some l) = [write_line l]` and `logoOps none = []`, the logo line is
written before the title line whenever a logo is configured, and no logo line
is ever written by the router when none is configured. -/
theorem logo_before_title_every_call (c : Construct) (t1 t2 : String)
    (ops1 ops2 : List TermOp) (st : TermState) (hb : st.budget = none) :
    (Construct.view c (View.ofOps t2 ops2)
        (Construct.view c (View.ofOps t1 ops1) st).2).2.trace =
      st.trace ++ (TermOp.clearLastLines 999 ::
          (logoOps c.logo ++ TermOp.writeLine t1 :: ops1))
        ++ (TermOp.clearLastLines 999 ::
          (logoOps c.logo ++ TermOp.writeLine t2 :: ops2)) ∧
    logoOps none = [] ∧
    (∀ l, logoOps (some l) = [TermOp.writeLine l]) := by
  refine ⟨?_, rfl, fun _ => rfl⟩
  rw [view_ofOps c t1 ops1 st, runOps_budget_none _ _ hb,
    view_ofOps c t2 ops2, runOps_budget_none _ _ rfl]
  simp [displayOps, List.append_assoc]

theorem logo_before_title_every_call_witness :
    TermState.initial.budget = none ∧
    ((Construct.view { terminal := .stdout, logo := some "Logo" }
        (View.ofOps "B" [])
        (Construct.view { terminal := .stdout, logo := some "Logo" }
            (View.ofOps "A" []) TermState.initial).2).2.trace =
      TermState.initial.trace ++ (TermOp.clearLastLines 999 ::
          (logoOps (some "Logo") ++ TermOp.writeLine "A" :: []))
        ++ (TermOp.clearLastLines 999 ::
          (logoOps (some "Logo") ++ TermOp.writeLine "B" :: [])) ∧
     logoOps none = [] ∧
     (∀ l, logoOps (some l) = [TermOp.writeLine l])) :=
  ⟨rfl, logo_before_title_every_call { terminal := .stdout, logo := some "Logo" }
    "A" "B" [] [] TermState.initial rfl⟩

/-- C10: in every `display` call the clear of the last 999 lines comes before
any write — it is the first operation of the call's trace, even on the very
first call of a fresh router — and on a terminal already showing arbitrary
pre-existing content, the call erases the last 999 pre-existing lines (all of
them when fewer than 999 are visible: the surviving prefix is
`t.lines.take (t.lines.length - 999)`) before writing the router's output
below the survivors. -/
theorem clear_precedes_writes_and_erases_preexisting (c : Construct)
    (title : String) (ls : List String) (t : TermState)
    (hb : t.budget = none) (ht : noNewline title)
    (hls : ∀ s ∈ ls, noNewline s)
    (hlogo : ∀ l, c.logo = some l → noNewline l) :
    (∀ ops : List TermOp,
      (Construct.view c (View.ofOps title ops) t).2.trace =
        t.trace ++ (TermOp.clearLastLines 999 ::
          (logoOps c.logo ++ TermOp.writeLine title :: ops))) ∧
    (Construct.view c (View.ofLines title ls) t).2.lines =
      t.lines.take (t.lines.length - 999) ++ screenOut c.logo title ls := by
  constructor
  · intro ops
    rw [view_ofOps, runOps_budget_none _ _ hb]
    rfl
  · rw [view_ofLines_eval c title ls t hb ht hls hlogo]

theorem clear_precedes_writes_and_erases_preexisting_witness :
    ({ lines := ["old1", "old2"], pending := "", trace := [],
       budget := none } : TermState).budget = none ∧
    noNewline "T" ∧ (∀ s ∈ ["x"], noNewline s) ∧
    (∀ l, (some "Logo" : Option String) = some l → noNewline l) ∧
    ((∀ ops : List TermOp,
      (Construct.view { terminal := .stdout, logo := some "Logo" }
          (View.ofOps "T" ops)
          { lines := ["old1", "old2"], pending := "", trace := [],
            budget := none }).2.trace =
        ({ lines := ["old1", "old2"], pending := "", trace := [],
           budget := none } : TermState).trace ++
          (TermOp.clearLastLines 999 ::
            (logoOps (some "Logo") ++ TermOp.writeLine "T" :: ops))) ∧
     (Construct.view { terminal := .stdout, logo := some "Logo" }
        (View.ofLines "T" ["x"])
        { lines := ["old1", "old2"], pending := "", trace := [],
          budget := none }).2.lines =
      ({ lines := ["old1", "old2"], pending := "", trace := [],
         budget := none } : TermState).lines.take
          (({ lines := ["old1", "old2"], pending := "", trace := [],
              budget := none } : TermState).lines.length - 999) ++
        screenOut (some "Logo") "T" ["x"]) :=
  ⟨rfl, by decide, by decide,
   fun l hl => by cases hl; decide,
   clear_precedes_writes_and_erases_preexisting
     { terminal := .stdout, logo := some "Logo" } "T" ["x"]
     { lines := ["old1", "old2"], pending := "", trace := [], budget := none }
     rfl (by decide) (by decide)
     (fun l hl => by cases hl; decide)⟩

/-- C1 counterexample: the claim "the clearing step of the second call erases
all lines written by the immediately preceding display call, with no residue
from A, regardless of how many lines A's content wrote" is false. With no
logo, a view A titled "TitleA" whose content writes 1000 lines "a" leaves
1001 visible lines; the next `display` of view B (title "TitleB", one line
"b") clears only the last 999 of them, so "TitleA" and one "a" from A remain
visible above B's output instead of only B's output. -/
theorem clear_residue_counterexample :
    (Construct.view { terminal := .stdout, logo := none }
        (View.ofLines "TitleB" ["b"])
        (Construct.view { terminal := .stdout, logo := none }
            (View.ofLines "TitleA" (List.replicate 1000 "a"))
            TermState.initial).2).2.lines =
      ["TitleA", "a", "TitleB", "b"] ∧
    (Construct.view { terminal := .stdout, logo := none }
        (View.ofLines "TitleB" ["b"])
        (Construct.view { terminal := .stdout, logo := none }
            (View.ofLines "TitleA" (List.replicate 1000 "a"))
            TermState.initial).2).2.lines ≠
      screenOut none "TitleB" ["b"] := by
  have hA := view_ofLines_eval { terminal := .stdout, logo := none } "TitleA"
    (List.replicate 1000 "a") TermState.initial rfl (by decide)
    (fun s hs => by rw [List.eq_of_mem_replicate hs]; decide)
    (fun l hl => nomatch hl)
  have hmain : (Construct.view { terminal := .stdout, logo := none }
      (View.ofLines "TitleB" ["b"])
      (Construct.view { terminal := .stdout, logo := none }
          (View.ofLines "TitleA" (List.replicate 1000 "a"))
          TermState.initial).2).2.lines = ["TitleA", "a", "TitleB", "b"] := by
    rw [hA, view_ofLines_eval { terminal := .stdout, logo := none } "TitleB"
      ["b"] _ rfl (by decide) (by decide) (fun l hl => nomatch hl)]
    simp only [TermState.initial, List.length_nil, Nat.zero_sub,
      List.take_zero, List.nil_append, screenOut, logoLines, List.length_cons,
      List.length_replicate]
    norm_num
  refine ⟨hmain, ?_⟩
  rw [hmain]
  decide

/-- C1 amended: the clearing step of the second `display` call erases all
lines written by the immediately preceding `display` call — calling
`display(A)` then `display(B)` leaves only B's output (plus the decoration,
if configured) visible — provided A's call left at most 999 visible lines
(decoration + title + content lines) and the screen before A's call also
showed at most 999 lines. Beyond the fixed 999-line bound, residue remains
(see the counterexample). -/
theorem clear_erases_previous_display_amended (c : Construct) (tA tB : String)
    (la lb : List String) (t : TermState) (hb : t.budget = none)
    (htA : noNewline tA) (htB : noNewline tB)
    (hla : ∀ s ∈ la, noNewline s) (hlb : ∀ s ∈ lb, noNewline s)
    (hlogo : ∀ l, c.logo = some l → noNewline l)
    (hsize : (screenOut c.logo tA la).length ≤ 999)
    (hpre : t.lines.length ≤ 999) :
    (Construct.view c (View.ofLines tB lb)
        (Construct.view c (View.ofLines tA la) t).2).2.lines =
      screenOut c.logo tB lb := by
  rw [view_ofLines_eval c tA la t hb htA hla hlogo,
    view_ofLines_eval c tB lb _ rfl htB hlb hlogo]
  have h0 : t.lines.length - 999 = 0 := Nat.sub_eq_zero_of_le hpre
  have h2 : (screenOut c.logo tA la).length - 999 = 0 :=
    Nat.sub_eq_zero_of_le hsize
  simp [h0, h2]

theorem clear_erases_previous_display_amended_witness :
    TermState.initial.budget = none ∧
    noNewline "A" ∧ noNewline "B" ∧
    (∀ s ∈ (["x"] : List String), noNewline s) ∧
    (∀ s ∈ ([] : List String), noNewline s) ∧
    (∀ l, (none : Option String) = some l → noNewline l) ∧
    (screenOut none "A" ["x"]).length ≤ 999 ∧
    TermState.initial.lines.length ≤ 999 ∧
    (Construct.view { terminal := .stdout, logo := none } (View.ofLines "B" [])
        (Construct.view { terminal := .stdout, logo := none }
            (View.ofLines "A" ["x"]) TermState.initial).2).2.lines =
      screenOut none "B" [] := by
  refine ⟨rfl, by decide, by decide, by decide, by decide, ?_, by decide,
    by decide, ?_⟩
  · intro l hl
    exact nomatch hl
  · exact clear_erases_previous_display_amended
      { terminal := .stdout, logo := none } "A" "B" ["x"] [] TermState.initial
      rfl (by decide) (by decide) (by decide) (by decide)
      (fun l hl => nomatch hl) (by decide) (by decide)
